import Mathlib

/-!
Verification of the realtime WebSocket core of `okc-py`
(`src/okc_py/sockets/repos/base.py`, `lines.py`, `breaks.py`).

Python strings are embedded as `List Char`; Python values that flow through
`json.loads` / `json.dumps` and the Pydantic payload models are embedded as
the inductive `J` below.  Modelling notes:

* JSON numbers are modelled as integers only: a frame whose payload JSON
  contains a float (a `.`, an exponent, `NaN` or `Infinity`) is outside the
  modelled value space, and `loads` fails on it where Python would produce a
  `float`.
* `int(message[0])` in the frame parser is modelled for the ASCII digit range
  `'0'..'9'`; non-ASCII decimal digits accepted by Python's `int` are outside
  the modelled character set.
* `\uXXXX` escapes naming lone UTF-16 surrogates (which Python accepts and
  which produce strings no Unicode-scalar model can hold) make `loads` fail.
-/

namespace Okc

/-- The characters of a Lean string literal, used to transcribe Python `str`
literals from the source. -/
def strL (s : String) : List Char := s.toList

/-- A Python value as handled by the socket layer: the result of
`json.loads`, the argument of `json.dumps`, and the payloads passed to the
event handlers.  `str` keys of `obj` reflect that `json.loads` only ever
builds string-keyed dicts. -/
inductive J where
  | null : J
  | bool : Bool → J
  | num : Int → J
  | str : List Char → J
  | arr : List J → J
  | obj : List (List Char × J) → J

/-- Python `str(int)`. -/
def intRepr (n : Int) : List Char :=
  if n < 0 then '-' :: Nat.toDigits 10 n.natAbs else Nat.toDigits 10 n.natAbs

/-- Lowercase hex digit, as CPython's json encoder writes them. -/
def hexDigit (n : Nat) : Char :=
  if n < 10 then Char.ofNat (48 + n) else Char.ofNat (87 + n)

/-- Four hex digits of a `\uXXXX` escape. -/
def hex4 (n : Nat) : List Char :=
  [hexDigit (n / 4096 % 16), hexDigit (n / 256 % 16),
   hexDigit (n / 16 % 16), hexDigit (n % 16)]

/-- One character of a JSON string as `json.dumps` (default
`ensure_ascii=True`) writes it: short escapes for the two-character escapes,
`\uXXXX` for the other controls and for everything outside `0x20..0x7e`,
surrogate pairs above `0xffff`. -/
def escapeChar (c : Char) : List Char :=
  if c = '"' then ['\\', '"']
  else if c = '\\' then ['\\', '\\']
  else if c = '\n' then ['\\', 'n']
  else if c = '\r' then ['\\', 'r']
  else if c = '\t' then ['\\', 't']
  else if c.toNat = 8 then ['\\', 'b']
  else if c.toNat = 12 then ['\\', 'f']
  else if c.toNat < 32 ∨ c.toNat > 126 then
    if c.toNat ≤ 65535 then '\\' :: 'u' :: hex4 c.toNat
    else
      let v := c.toNat - 65536
      ('\\' :: 'u' :: hex4 (55296 + v / 1024)) ++ ('\\' :: 'u' :: hex4 (56320 + v % 1024))
  else [c]

/-- A JSON string literal as `json.dumps` writes it. -/
def encodeStr (s : List Char) : List Char :=
  '"' :: (s.map escapeChar).flatten ++ ['"']

mutual

/-- `json.dumps` with its default separators `", "` and `": "`. -/
def dumps : J → List Char
  | .null => strL "null"
  | .bool true => strL "true"
  | .bool false => strL "false"
  | .num n => intRepr n
  | .str s => encodeStr s
  | .arr xs => '[' :: dumpsItems xs ++ [']']
  | .obj kvs => '{' :: dumpsMembers kvs ++ ['\x7d']

/-- Array elements joined by `", "`. -/
def dumpsItems : List J → List Char
  | [] => []
  | [x] => dumps x
  | x :: y :: rest => dumps x ++ ',' :: ' ' :: dumpsItems (y :: rest)

/-- Object members `"key": value` joined by `", "`. -/
def dumpsMembers : List (List Char × J) → List Char
  | [] => []
  | [(k, v)] => encodeStr k ++ ':' :: ' ' :: dumps v
  | (k, v) :: m :: rest =>
      encodeStr k ++ ':' :: ' ' :: dumps v ++ ',' :: ' ' :: dumpsMembers (m :: rest)

end

/-- The whitespace `json.loads` skips. -/
def isJsonWs (c : Char) : Bool := c = ' ' ∨ c = '\t' ∨ c = '\n' ∨ c = '\r'

/-- Drop leading JSON whitespace. -/
def skipWs : List Char → List Char
  | [] => []
  | c :: cs => if isJsonWs c then skipWs cs else c :: cs

/-- Value of one hex digit. -/
def hexVal (c : Char) : Option Nat :=
  if '0' ≤ c ∧ c ≤ '9' then some (c.toNat - 48)
  else if 'a' ≤ c ∧ c ≤ 'f' then some (c.toNat - 87)
  else if 'A' ≤ c ∧ c ≤ 'F' then some (c.toNat - 55)
  else none

/-- Four hex digits of a `\uXXXX` escape, and the rest of the input. -/
def parseHex4 : List Char → Option (Nat × List Char)
  | a :: b :: c :: d :: rest => do
      let x ← hexVal a
      let y ← hexVal b
      let z ← hexVal c
      let w ← hexVal d
      pure (((x * 16 + y) * 16 + z) * 16 + w, rest)
  | _ => none

/-- The character of a single-letter escape `\e`. -/
def escCode (e : Char) : Option Char :=
  if e = '"' then some '"'
  else if e = '\\' then some '\\'
  else if e = '/' then some '/'
  else if e = 'b' then some (Char.ofNat 8)
  else if e = 'f' then some (Char.ofNat 12)
  else if e = 'n' then some '\n'
  else if e = 'r' then some '\r'
  else if e = 't' then some '\t'
  else none

/-- Body of a JSON string after the opening quote, as `json.loads` (strict
mode) reads it: raw control characters are rejected, surrogate pairs are
combined, lone surrogates fail (see the module comment). -/
def parseStrBody : Nat → List Char → Option (List Char × List Char)
  | 0, _ => none
  | _ + 1, [] => none
  | fuel + 1, c :: rest =>
    if c = '"' then some ([], rest)
    else if c = '\\' then
      match rest with
      | [] => none
      | e :: rest2 =>
        if e = 'u' then
          match parseHex4 rest2 with
          | none => none
          | some (n, rest3) =>
            if 55296 ≤ n ∧ n ≤ 56319 then
              match rest3 with
              | '\\' :: 'u' :: rest4 =>
                match parseHex4 rest4 with
                | some (m, rest5) =>
                  if 56320 ≤ m ∧ m ≤ 57343 then
                    match parseStrBody fuel rest5 with
                    | some (s, rem) =>
                        some (Char.ofNat (65536 + (n - 55296) * 1024 + (m - 56320)) :: s, rem)
                    | none => none
                  else none
                | none => none
              | _ => none
            else if 56320 ≤ n ∧ n ≤ 57343 then none
            else
              match parseStrBody fuel rest3 with
              | some (s, rem) => some (Char.ofNat n :: s, rem)
              | none => none
        else
          match escCode e with
          | none => none
          | some ch =>
            match parseStrBody fuel rest2 with
            | some (s, rem) => some (ch :: s, rem)
            | none => none
    else if c.toNat < 32 then none
    else
      match parseStrBody fuel rest with
      | some (s, rem) => some (c :: s, rem)
      | none => none

/-- Natural value of a run of decimal digits. -/
def natOfDigits (ds : List Char) : Nat :=
  ds.foldl (fun a c => a * 10 + (c.toNat - 48)) 0

/-- A JSON number as `json.loads` reads it, restricted to integers: the
grammar forbids leading zeros, and a fractional part or exponent (a Python
`float`) is outside the modelled value space, so it fails here. -/
def parseNumber (l : List Char) : Option (J × List Char) :=
  let p := match l with
    | '-' :: t => (true, t)
    | _ => (false, l)
  let ds := p.2.takeWhile Char.isDigit
  let rest := p.2.dropWhile Char.isDigit
  if ds = [] then none
  else if 1 < ds.length ∧ ds.head? = some '0' then none
  else
    match rest with
    | '.' :: _ => none
    | 'e' :: _ => none
    | 'E' :: _ => none
    | _ =>
      let v : Int := Int.ofNat (natOfDigits ds)
      some (J.num (if p.1 then -v else v), rest)

/-- Python dict insertion: a repeated key keeps its first position and takes
the later value. -/
def objInsert : List (List Char × J) → List Char → J → List (List Char × J)
  | [], k, v => [(k, v)]
  | (k', v') :: rest, k, v =>
      if k' = k then (k', v) :: rest else (k', v') :: objInsert rest k v

mutual

/-- One JSON value (leading whitespace allowed) and the rest of the input,
as `json.loads` scans it. -/
def parseValue : Nat → List Char → Option (J × List Char)
  | 0, _ => none
  | fuel + 1, l =>
    match skipWs l with
    | [] => none
    | c :: rest =>
      if c = '"' then
        match parseStrBody (rest.length + 1) rest with
        | some (s, rem) => some (J.str s, rem)
        | none => none
      else if c = '\x7b' then parseObjRest fuel rest
      else if c = '[' then parseArrRest fuel rest
      else if c = 't' then
        match rest with
        | 'r' :: 'u' :: 'e' :: r => some (J.bool true, r)
        | _ => none
      else if c = 'f' then
        match rest with
        | 'a' :: 'l' :: 's' :: 'e' :: r => some (J.bool false, r)
        | _ => none
      else if c = 'n' then
        match rest with
        | 'u' :: 'l' :: 'l' :: r => some (J.null, r)
        | _ => none
      else if c = '-' ∨ c.isDigit then parseNumber (c :: rest)
      else none

/-- An array after its opening bracket. -/
def parseArrRest : Nat → List Char → Option (J × List Char)
  | 0, _ => none
  | fuel + 1, l =>
    match skipWs l with
    | ']' :: r => some (J.arr [], r)
    | _ => parseArrItems fuel l []

/-- Array elements separated by commas, up to the closing bracket. -/
def parseArrItems : Nat → List Char → List J → Option (J × List Char)
  | 0, _, _ => none
  | fuel + 1, l, acc =>
    match parseValue fuel l with
    | none => none
    | some (v, rest) =>
      match skipWs rest with
      | ',' :: r2 => parseArrItems fuel r2 (acc ++ [v])
      | ']' :: r2 => some (J.arr (acc ++ [v]), r2)
      | _ => none

/-- An object after its opening brace. -/
def parseObjRest : Nat → List Char → Option (J × List Char)
  | 0, _ => none
  | fuel + 1, l =>
    match skipWs l with
    | '\x7d' :: r => some (J.obj [], r)
    | _ => parseObjItems fuel l []

/-- Object members separated by commas, up to the closing brace. -/
def parseObjItems : Nat → List Char → List (List Char × J) → Option (J × List Char)
  | 0, _, _ => none
  | fuel + 1, l, acc =>
    match skipWs l with
    | '"' :: r =>
      match parseStrBody (r.length + 1) r with
      | none => none
      | some (k, r2) =>
        match skipWs r2 with
        | ':' :: r3 =>
          match parseValue fuel r3 with
          | none => none
          | some (v, r4) =>
            match skipWs r4 with
            | ',' :: r5 => parseObjItems fuel r5 (objInsert acc k v)
            | '\x7d' :: r5 => some (J.obj (objInsert acc k v), r5)
            | _ => none
        | _ => none
    | _ => none

end

/-- `json.loads`: one value, then at most trailing whitespace. -/
def loads (s : List Char) : Option J :=
  match parseValue (2 * s.length + 2) s with
  | some (v, rest) => if skipWs rest = [] then some v else none
  | none => none

/-! ## Frame codec (`BaseWS._parse_engineio_packet`, `BaseWS._send_engineio_packet`) -/

/-- Python `int(c)` on one character, for the ASCII digits (see the module
comment); any other character raises `ValueError`, which the parser's
`except` clause turns into `None`. -/
def digitVal (c : Char) : Option Nat :=
  if '0' ≤ c ∧ c ≤ '9' then some (c.toNat - 48) else none

/-- Python `s.split(sep, 1)`: the part before the first separator, and — when
a separator occurs — the part after it. -/
def splitOnce (sep : Char) : List Char → List Char × Option (List Char)
  | [] => ([], none)
  | c :: cs =>
    if c = sep then ([], some cs)
    else
      let r := splitOnce sep cs
      (c :: r.1, r.2)

/-- The payload after the namespace separator: `if data:` skips JSON decoding
for the empty string, otherwise `json.loads` is attempted and a
`JSONDecodeError` keeps the raw string. -/
def decodeData (d : List Char) : J :=
  if d = [] then J.str []
  else
    match loads d with
    | some v => v
    | none => J.str d

/-- `BaseWS._parse_engineio_packet` (`base.py:104-152`): frame kind digit,
then — when the rest contains a `/` — a namespace up to the first comma
(kept only when it starts with `/`) and the data after that comma; without a
`/` the whole rest is the data. Fails only on empty input or a first
character that `int()` rejects. -/
def parseEngineio (message : List Char) : Option (Nat × List Char × Option J) :=
  match message with
  | [] => none
  | c :: rest =>
    match digitVal c with
    | none => none
    | some packetType =>
      if rest.contains '/' then
        let pr := splitOnce ',' rest
        let nsp := if pr.1.head? = some '/' then pr.1 else []
        some (packetType, nsp, pr.2.map decodeData)
      else if rest = [] then some (packetType, [], none)
      else some (packetType, [], some (decodeData rest))

/-- Python `str(x)` of a payload that is not a dict or list, as
`_send_engineio_packet` applies it. -/
def pyPayloadStr : J → List Char
  | .arr xs => dumps (.arr xs)
  | .obj kvs => dumps (.obj kvs)
  | .str s => s
  | .num n => intRepr n
  | .bool true => strL "True"
  | .bool false => strL "False"
  | .null => strL "None"

/-- `BaseWS._send_engineio_packet` (`base.py:154-179`): the wire text of a
packet — the kind, the namespace verbatim (appending the empty namespace and
skipping it coincide), then `,` and the payload, `json.dumps`-encoded for a
dict or list and `str()`-converted otherwise. -/
def serializePacket (packetType : Nat) (nsp : List Char) (data : Option J) : List Char :=
  Nat.toDigits 10 packetType ++ nsp ++
    match data with
    | none => []
    | some d => ',' :: pyPayloadStr d

/-- The payload value `parseEngineio` recovers from a serialized payload `d`:
its JSON normalization when `str(d)` is valid JSON, the raw string otherwise. -/
def normalizePy (d : J) : J := decodeData (pyPayloadStr d)

/-! ## Read loop (`BaseWS._handle_raw_message`, `base.py:302-326`) -/

/-- An observable effect of handling one inbound text frame. -/
inductive WsAction where
  | sendPacket (packetType : Nat) (nsp : List Char) (data : Option J)
  | deliverMessage (data : Option J)

/-- `BaseWS._handle_raw_message`: the literal ping marker `"2"` is answered
with a pong packet and nothing else; any other text is parsed, a parse
failure is dropped, and only kind-4 (message) frames reach `on_message`. -/
def handleRawMessage (raw : List Char) : List WsAction :=
  if raw = ['2'] then [.sendPacket 3 [] none]
  else
    match parseEngineio raw with
    | none => []
    | some (packetType, _, data) =>
      if packetType = 4 then [.deliverMessage data] else []

/-! ## Event dispatcher (`BaseWS._emit_event`, `BaseWS.on`) -/

/-- A registered handler, abstracted to what `_emit_event` can observe of it:
an identity, whether `asyncio.iscoroutinefunction` holds of it, and whether
calling it raises. -/
structure Handler where
  hid : Nat
  isCoroutine : Bool
  raises : Bool
deriving DecidableEq

/-- The subscriber table `self._handlers`: a Python dict from event name to
the list of handlers, in insertion order. -/
def handlersFor (tbl : List (List Char × List Handler)) (event : List Char) :
    Option (List Handler) :=
  (tbl.find? (fun kv => kv.1 == event)).map (fun kv => kv.2)

/-- Replace the handler list stored under an existing key. -/
def tblReplace : List (List Char × List Handler) → List Char → List Handler →
    List (List Char × List Handler)
  | [], _, _ => []
  | (k, v) :: rest, key, hs =>
    if k = key then (k, hs) :: rest else (k, v) :: tblReplace rest key hs

/-- `BaseWS.on` (`base.py:409-418`): create the entry if missing, then append
the handler. -/
def onRegister (tbl : List (List Char × List Handler)) (event : List Char)
    (h : Handler) : List (List Char × List Handler) :=
  match handlersFor tbl event with
  | none => tbl ++ [(event, [h])]
  | some hs => tblReplace tbl event (hs ++ [h])

/-- The loop of `_emit_event` over one handler list: each iteration runs
`try: create_task(handler(v))` / `handler(v)` `except Exception: logger.error`.
Returns the invocations `(handler, value)` in order, and whether an exception
escaped the loop to the caller. -/
def emitRun {α : Type} : List Handler → α → List (Nat × α) × Bool
  | [], _ => ([], false)
  | h :: rest, v =>
    let call : Except (List Char) Unit :=
      if h.isCoroutine then .ok ()
      else if h.raises then .error (strL "handler error")
      else .ok ()
    let r := emitRun rest v
    match call with
    | .ok _ => ((h.hid, v) :: r.1, r.2)
    | .error _ => ((h.hid, v) :: r.1, r.2)

/-- `BaseWS._emit_event` (`base.py:344-363`): no entry for the event returns
at once; otherwise the handler loop runs. -/
def emitEvent {α : Type} (tbl : List (List Char × List Handler)) (event : List Char)
    (v : α) : List (Nat × α) × Bool :=
  match handlersFor tbl event with
  | none => ([], false)
  | some hs => emitRun hs v

/-! ## Namespace tables (`lines.py`, `breaks.py`) -/

/-- Python `dict.get(key)` on a string-keyed table. -/
def dictGet (d : List (List Char × List Char)) (k : List Char) : Option (List Char) :=
  (d.find? (fun kv => kv.1 == k)).map (fun kv => kv.2)

/-- `LINE_NAMESPACES` (`lines.py:17-21`). -/
def LINE_NAMESPACES : List (List Char × List Char) :=
  [(strL "ntp1", strL "/ts-line-ntp1-okcdb-ws"),
   (strL "ntp2", strL "/line-ntp2-ws"),
   (strL "nck", strL "/ts-line-genesys-okcdb-ws")]

/-- `LineWSClient.service_url` (`lines.py:53-56`):
`LINE_NAMESPACES.get(self._line, LINE_NAMESPACES["nck"])`. -/
def lineServiceUrl (line : List Char) : List Char :=
  match dictGet LINE_NAMESPACES line with
  | some u => u
  | none => (dictGet LINE_NAMESPACES (strL "nck")).getD []

/-- `BREAK_NAMESPACES` (`breaks.py:24-28`). -/
def BREAK_NAMESPACES : List (List Char × List Char) :=
  [(strL "ntp_one", strL "/ntp-one-break-ws"),
   (strL "ntp_two", strL "/ntp-two-break-ws"),
   (strL "ntp_nck", strL "/break-nck-ntp-ws")]

/-- `BreaksWSClient.service_url` (`breaks.py:72-75`):
`BREAK_NAMESPACES.get(self._namespace, BREAK_NAMESPACES["ntp_nck"])`. -/
def breakServiceUrl (nsp : List Char) : List Char :=
  match dictGet BREAK_NAMESPACES nsp with
  | some u => u
  | none => (dictGet BREAK_NAMESPACES (strL "ntp_nck")).getD []

/-! ## Connection state machine (`BaseWS.connect` / `disconnect` / `is_connected`,
`BreaksWSClient.connect`)

The handshake bodies are sequences of awaited calls; each call is one
abstract step below, named after the method that performs it.  An
environment decides each step's outcome (`true` = the await returned a
usable frame / the send succeeded; `false` = timeout, socket-open failure,
or a close/error frame, all of which raise inside the step's method). -/

/-- One awaited call of a `connect()` body. -/
inductive HStep where
  /-- `_connect_websocket`: `session.ws_connect` plus the wait for the
  Engine.IO open frame. On failure the new socket handle may already be
  assigned (a close or error frame after the open succeeds); the model
  assigns it, and the claims proved below only concern the state after the
  `disconnect()` teardown, which is the same either way. -/
  | openSocket
  /-- `_send_connect_packet`: send `40<namespace>,`. -/
  | sendConnectPacket
  /-- `_handle_connect_response`: await the `40.../{"sid":...}` ack,
  `asyncio.wait_for` timeout 5 s. -/
  | awaitConnectResponse
  /-- `_handle_second_message`: await the explicit `["connected"]` frame,
  `asyncio.wait_for` timeout 5 s. -/
  | awaitSecondMessage
  /-- `_send_authentication`: send `42<namespace>,["id",...]` (raises when
  the socket is already closed). -/
  | sendAuthentication
  /-- The `asyncio.wait_for(self._ws.receive(), timeout=5.0)` inside
  `_finalize_connection`: one more inbound frame after authentication. -/
  | awaitPostAuthFrame
  /-- `asyncio.create_task(self._listen_messages())`. -/
  | spawnListenLoop
deriving DecidableEq

/-- The per-step `asyncio.wait_for` bound, in seconds, where one exists. -/
def stepTimeout : HStep → Option Nat
  | .awaitConnectResponse => some 5
  | .awaitSecondMessage => some 5
  | .awaitPostAuthFrame => some 5
  | _ => none

/-- The `try:` body of `BaseWS.connect` (`base.py:383-389`), in order. -/
def baseConnectSteps : List HStep :=
  [.openSocket, .sendConnectPacket, .awaitConnectResponse, .awaitSecondMessage,
   .sendAuthentication, .awaitPostAuthFrame, .spawnListenLoop]

/-- The `try:` body of `BreaksWSClient.connect` (`breaks.py:99-114`), in
order: the auth packet is sent directly after the connect ack, and the
listen task is spawned with no further await. -/
def breaksConnectSteps : List HStep :=
  [.openSocket, .sendConnectPacket, .awaitConnectResponse, .sendAuthentication,
   .spawnListenLoop]

/-- An open duplex-socket handle: an identity (fresh per `ws_connect call`)
and its `closed` flag. -/
structure WsHandle where
  wid : Nat
  closed : Bool
deriving DecidableEq

/-- The mutable state of one client: `self._ws`, `self._listen_task`
(`some done?` when a task was ever created), `self._handlers`, and a counter
supplying fresh socket-handle identities. -/
structure ClientState where
  ws : Option WsHandle
  listenTask : Option Bool
  handlers : List (List Char × List Handler)
  nextId : Nat
deriving DecidableEq

/-- `BaseWS.is_connected` (`base.py:439-442`):
`self._ws is not None and not self._ws.closed`. -/
def is_connected (s : ClientState) : Bool :=
  match s.ws with
  | some h => !h.closed
  | none => false

/-- `BaseWS.disconnect` (`base.py:395-407`): cancel and await the listen task
if one is running (it ends `done`), close the socket if open, and clear
`self._ws`.  Never raises, callable from any state. -/
def disconnect (s : ClientState) : ClientState :=
  { s with listenTask := s.listenTask.map (fun _ => true), ws := none }

/-- The state change a successful step performs. -/
def applyStep (s : ClientState) (st : HStep) : ClientState :=
  match st with
  | .openSocket => { s with ws := some ⟨s.nextId, false⟩, nextId := s.nextId + 1 }
  | .spawnListenLoop => { s with listenTask := some false }
  | _ => s

/-- Run the `try:` body: perform steps until the first failing one raises.
Returns the state reached, whether the body completed, and the steps
performed (the failing one included). -/
def runSteps (outcome : HStep → Bool) :
    List HStep → ClientState → ClientState × Bool × List HStep
  | [], s => (s, true, [])
  | st :: rest, s =>
    let s' := applyStep s st
    if outcome st then
      let r := runSteps outcome rest s'
      (r.1, r.2.1, st :: r.2.2)
    else (s', false, [st])

/-- A `connect()` body shared by the two variants (`base.py:366-393`,
`breaks.py:77-119`): the already-connected guard
`if self._ws and not self._ws.closed` logs and returns, else the step
sequence runs and any exception triggers `await self.disconnect()` before
propagating.  Returns the final state, success, and the steps performed. -/
def connectWith (steps : List HStep) (outcome : HStep → Bool) (s : ClientState) :
    ClientState × Bool × List HStep :=
  if is_connected s then (s, true, [])
  else
    match runSteps outcome steps s with
    | (s', true, performed) => (s', true, performed)
    | (s', false, performed) => (disconnect s', false, performed)

/-- `BaseWS.connect`, as `LineWSClient` inherits it. -/
def baseConnect (outcome : HStep → Bool) (s : ClientState) :
    ClientState × Bool × List HStep :=
  connectWith baseConnectSteps outcome s

/-- `BreaksWSClient.connect`. -/
def breaksConnect (outcome : HStep → Bool) (s : ClientState) :
    ClientState × Bool × List HStep :=
  connectWith breaksConnectSteps outcome s

/-! ## Payload models (`sockets/models/breaks.py`) and
`BreaksWSClient.on_message` (`breaks.py:121-193`)

The Pydantic models are embedded field by field.  Every field of every model
has a default, so validation fails only on a present field of the wrong
shape.  Lax coercions are modelled for the cases the payloads use: an `int`
field accepts an integer or a digit string and rejects `bool`; `str` and
`bool` fields accept exactly their own type (further lax coercions of
pydantic, such as `"true"` for a `bool` field, are outside the modelled
payload universe); `populate_by_name` lets a field arrive under its alias —
preferred — or its name. -/

/-- The value validated for a field: the alias key first, then the field
name (`populate_by_name = True`). -/
def jGetAlias (kvs : List (List Char × J)) (aliasKey name : List Char) : Option J :=
  match (kvs.find? (fun kv => kv.1 == aliasKey)).map (fun kv => kv.2) with
  | some v => some v
  | none => (kvs.find? (fun kv => kv.1 == name)).map (fun kv => kv.2)

/-- A field with no alias. -/
def jGet (kvs : List (List Char × J)) (name : List Char) : Option J :=
  (kvs.find? (fun kv => kv.1 == name)).map (fun kv => kv.2)

/-- Validate a `str` field: absent takes the default. -/
def vStr (v : Option J) (dflt : List Char) : Option (List Char) :=
  match v with
  | none => some dflt
  | some (J.str s) => some s
  | some _ => none

/-- Python-style integer literal accepted when coercing a string to an `int`
field: an optional sign and decimal digits. -/
def parseIntChars (l : List Char) : Option Int :=
  let p := match l with
    | '-' :: t => (true, t)
    | '+' :: t => (false, t)
    | _ => (false, l)
  if p.2 ≠ [] ∧ p.2.all Char.isDigit then
    let v : Int := Int.ofNat (natOfDigits p.2)
    some (if p.1 then -v else v)
  else none

/-- Validate an `int` field: absent takes the default; an integer or a digit
string passes; `bool` and everything else fail. -/
def vInt (v : Option J) (dflt : Int) : Option Int :=
  match v with
  | none => some dflt
  | some (J.num n) => some n
  | some (J.str s) => parseIntChars s
  | some _ => none

/-- Validate a `bool` field: absent takes the default. -/
def vBool (v : Option J) (dflt : Bool) : Option Bool :=
  match v with
  | none => some dflt
  | some (J.bool b) => some b
  | some _ => none

/-- `AuthMessage` (`models/breaks.py:421-434`). -/
structure AuthMessage where
  user_name : List Char
  is_super_user : Bool
deriving DecidableEq

/-- Validation of `AuthMessage(**event_data)`. -/
def decodeAuthMessage (v : J) : Option AuthMessage :=
  match v with
  | J.obj kvs => do
    let un ← vStr (jGetAlias kvs (strL "userName") (strL "user_name")) []
    let su ← vBool (jGetAlias kvs (strL "isSuperUser") (strL "is_super_user")) false
    pure ⟨un, su⟩
  | _ => none

/-- `UserBreaks` (`models/breaks.py:437-451`). -/
structure UserBreaks where
  breaks_5 : Int
  breaks_10 : Int
  breaks_15 : Int
deriving DecidableEq

/-- Validation of `UserBreaks(**event_data)`. -/
def decodeUserBreaks (v : J) : Option UserBreaks :=
  match v with
  | J.obj kvs => do
    let b5 ← vInt (jGetAlias kvs (strL "line5") (strL "breaks_5")) 0
    let b10 ← vInt (jGetAlias kvs (strL "line10") (strL "breaks_10")) 0
    let b15 ← vInt (jGetAlias kvs (strL "line15") (strL "breaks_15")) 0
    pure ⟨b5, b10, b15⟩
  | _ => none

/-- `BreakLineData` (`models/breaks.py:76-97`), the data fields. -/
structure BreakLineData where
  table : List Char
  break_number : Int
  discharge : List Char
  discharge_number : Int
  open_discharges_count : Int
deriving DecidableEq

/-- Validation of one `BreakLineData` value. -/
def decodeBreakLineData (v : J) : Option BreakLineData :=
  match v with
  | J.obj kvs => do
    let t ← vStr (jGet kvs (strL "table")) []
    let bn ← vInt (jGetAlias kvs (strL "breakNumber") (strL "break_number")) 0
    let d ← vStr (jGet kvs (strL "discharge")) []
    let dn ← vInt (jGetAlias kvs (strL "dischargeNumber") (strL "discharge_number")) 0
    let oc ← vInt (jGetAlias kvs (strL "openDischargesCount")
        (strL "open_discharges_count")) 0
    pure ⟨t, bn, d, dn, oc⟩
  | _ => none

/-- `SimpleBreakLineData` (`models/breaks.py:273-285`), the data fields. -/
structure SimpleBreakLineData where
  table : List Char
  break_number : Int
deriving DecidableEq

/-- Validation of one `SimpleBreakLineData` value. -/
def decodeSimpleBreakLineData (v : J) : Option SimpleBreakLineData :=
  match v with
  | J.obj kvs => do
    let t ← vStr (jGet kvs (strL "table")) []
    let bn ← vInt (jGetAlias kvs (strL "breakNumber") (strL "break_number")) 0
    pure ⟨t, bn⟩
  | _ => none

/-- Validate a `dict[str, X]` field: absent takes the empty dict; a present
value must be a dict and every value must validate as `X`. -/
def vDict {α : Type} (dec : J → Option α) (v : Option J) :
    Option (List (List Char × α)) :=
  match v with
  | none => some []
  | some (J.obj kvs) => kvs.mapM (fun kv => (dec kv.2).map (fun a => (kv.1, a)))
  | some _ => none

/-- `PageData` (`models/breaks.py:174-187`), the data fields. -/
structure PageData where
  lines : List (List Char × BreakLineData)
  queue : List Char
deriving DecidableEq

/-- Validation of `PageData(**event_data)`. -/
def decodePageData (v : J) : Option PageData :=
  match v with
  | J.obj kvs => do
    let ls ← vDict decodeBreakLineData (jGet kvs (strL "lines"))
    let q ← vStr (jGet kvs (strL "queue")) []
    pure ⟨ls, q⟩
  | _ => none

/-- `SimplePageData` (`models/breaks.py:325-345`), the data fields. -/
structure SimplePageData where
  lines : List (List Char × SimpleBreakLineData)
  queue : List Char
  finesse_check : List Char
  finesse_server : List Char
deriving DecidableEq

/-- Validation of `SimplePageData(**event_data)`. -/
def decodeSimplePageData (v : J) : Option SimplePageData :=
  match v with
  | J.obj kvs => do
    let ls ← vDict decodeSimpleBreakLineData (jGet kvs (strL "lines"))
    let q ← vStr (jGet kvs (strL "queue")) []
    let fc ← vStr (jGetAlias kvs (strL "finesseCheck") (strL "finesse_check")) []
    let fs ← vStr (jGetAlias kvs (strL "finesseServer") (strL "finesse_server")) []
    pure ⟨ls, q, fc, fs⟩
  | _ => none

/-- A value passed to `_emit_event` by `BreaksWSClient.on_message`: the raw
(possibly absent) event data, or a validated model. -/
inductive Emitted where
  | raw (v : Option J)
  | auth (m : AuthMessage)
  | userBreaks (m : UserBreaks)
  | page (m : PageData)
  | simplePage (m : SimplePageData)

/-- `event_data and isinstance(event_data, dict)`: the members of a present,
non-empty (truthy) dict. -/
def truthyDict : Option J → Option (List (List Char × J))
  | some (J.obj []) => none
  | some (J.obj kvs) => some kvs
  | _ => none

/-- `BreaksWSClient.on_message` (`breaks.py:121-193`) as the list of
`_emit_event` calls it performs, each the event value and the emitted
payload.  Not a list (or an empty list) returns without emitting; a known
event name with a truthy dict payload is validated, emitting the model on
success; every other path — a failed validation included — falls through to
the final raw `_emit_event(event, event_data)`. -/
def breaksOnMessage (nsp : List Char) (data : Option J) : List (J × Emitted) :=
  match data with
  | some (J.arr (event :: args)) =>
    let eventData : Option J := args.head?
    let fallback : List (J × Emitted) := [(event, .raw eventData)]
    match event, truthyDict eventData with
    | J.str s, some kvs =>
      if s = strL "authMessage" then
        match decodeAuthMessage (J.obj kvs) with
        | some m => [(J.str s, .auth m)]
        | none => fallback
      else if s = strL "userBreaks" then
        match decodeUserBreaks (J.obj kvs) with
        | some m => [(J.str s, .userBreaks m)]
        | none => fallback
      else if s = strL "pageData" then
        if nsp = strL "ntp_one" ∨ nsp = strL "ntp_two" then
          match decodeSimplePageData (J.obj kvs) with
          | some m => [(J.str s, .simplePage m)]
          | none => fallback
        else
          match decodePageData (J.obj kvs) with
          | some m => [(J.str s, .page m)]
          | none => fallback
      else fallback
    | _, _ => fallback
  | _ => []

/-! ## Helper lemmas -/

/-- A parser that saw a digit first character always produces a frame. -/
lemma parseEngineio_isSome (c : Char) (k : Nat) (rest : List Char)
    (h : digitVal c = some k) : (parseEngineio (c :: rest)).isSome = true := by
  simp only [parseEngineio, h]
  split
  · simp
  · split <;> simp

/-- `split(",", 1)` on text without the separator returns the whole text. -/
lemma splitOnce_no_sep (sep : Char) (l : List Char) (h : sep ∉ l) :
    splitOnce sep l = (l, none) := by
  induction l with
  | nil => rfl
  | cons c cs ih =>
    simp only [List.mem_cons, not_or] at h
    simp [splitOnce, Ne.symm h.1, ih h.2]

/-- `split(",", 1)` cuts at the first separator. -/
lemma splitOnce_found (sep : Char) (pre post : List Char) (h : sep ∉ pre) :
    splitOnce sep (pre ++ sep :: post) = (pre, some post) := by
  induction pre with
  | nil => simp [splitOnce]
  | cons c cs ih =>
    simp only [List.mem_cons, not_or] at h
    simp [splitOnce, Ne.symm h.1, ih h.2]

/-- `str(packet_type)` of a single-digit kind. -/
lemma toDigits10 (k : Nat) (hk : k ≤ 9) :
    Nat.toDigits 10 k = [Char.ofNat (48 + k)] := by
  interval_cases k <;> rfl

/-- `int()` recovers a single-digit kind. -/
lemma digitVal_ofNat (k : Nat) (hk : k ≤ 9) :
    digitVal (Char.ofNat (48 + k)) = some k := by
  interval_cases k <;> rfl

/-! ## Claims -/

/-- The parser on any input with a digit first character, characterized by
its branches. -/
lemma parseEngineio_cons (c : Char) (k : Nat) (rest : List Char)
    (h : digitVal c = some k) :
    parseEngineio (c :: rest) =
      if rest.contains '/' then
        some (k,
          (if (splitOnce ',' rest).1.head? = some '/' then (splitOnce ',' rest).1
           else []),
          ((splitOnce ',' rest).2).map decodeData)
      else if rest = [] then some (k, [], none)
      else some (k, [], some (decodeData rest)) := by
  simp only [parseEngineio, h]

/-- Claim C8: parsing the one-character frame `"2"` yields a Ping frame
(kind 2) with empty namespace and nil payload; the read loop answers the
text frame `"2"` with exactly one pong packet — whose wire form is `"3"` —
and performs no event dispatch for it. -/
theorem c8_ping_pong :
    parseEngineio ['2'] = some (2, [], none) ∧
    handleRawMessage ['2'] = [WsAction.sendPacket 3 [] none] ∧
    serializePacket 3 [] none = ['3'] :=
  ⟨rfl, rfl, rfl⟩

/-- Claim C1, counterexample: the input `"7"` — first character the digit 7 —
parses into a frame of kind 7 instead of the parse failure the claim
requires. -/
theorem c1_counterexample :
    parseEngineio ['7'] = some (7, [], none) ∧ parseEngineio ['7'] ≠ none :=
  ⟨rfl, fun h =>
    Option.noConfusion
      ((rfl : parseEngineio ['7'] = some (7, [], none)).symm.trans h)⟩

/-- Claim C1 (amended): the frame parser returns `None` exactly when the
input is empty or its first character is not an ASCII digit `0`–`9`; an
input whose first character is the digit 7, 8 or 9 parses successfully into
a frame of that kind — out-of-range kinds are not rejected by the parser. -/
theorem c1_parse_failure_amended (msg : List Char) :
    (parseEngineio msg = none ↔
      msg = [] ∨ ∃ c rest, msg = c :: rest ∧ digitVal c = none) ∧
    parseEngineio ['7'] = some (7, [], none) ∧
    parseEngineio ['8'] = some (8, [], none) ∧
    parseEngineio ['9'] = some (9, [], none) := by
  refine ⟨⟨fun h => ?_, fun h => ?_⟩, rfl, rfl, rfl⟩
  · match msg with
    | [] => exact Or.inl rfl
    | c :: rest =>
      cases hd : digitVal c with
      | none => exact Or.inr ⟨c, rest, rfl, hd⟩
      | some k =>
        have := parseEngineio_isSome c k rest hd
        rw [h] at this
        simp at this
  · rcases h with h | ⟨c, rest, rfl, hd⟩
    · rw [h]; rfl
    · simp [parseEngineio, hd]

/-- Claim C7, counterexample: the unknown namespace identifier `"bogus"` is
not rejected by either client family — `service_url` silently substitutes
the default namespace path; even the break constructor's own default
argument `"ntp-nck"` is an unknown key that takes the same fallback. -/
theorem c7_counterexample :
    dictGet LINE_NAMESPACES (strL "bogus") = none ∧
    lineServiceUrl (strL "bogus") = strL "/ts-line-genesys-okcdb-ws" ∧
    dictGet BREAK_NAMESPACES (strL "bogus") = none ∧
    breakServiceUrl (strL "bogus") = strL "/break-nck-ntp-ws" ∧
    dictGet BREAK_NAMESPACES (strL "ntp-nck") = none ∧
    breakServiceUrl (strL "ntp-nck") = strL "/break-nck-ntp-ws" := by
  refine ⟨rfl, rfl, rfl, rfl, rfl, rfl⟩

/-- Claim C7 (amended): a namespace identifier outside the fixed enumeration
is not a rejected input — `service_url` silently proceeds with the default
namespace path (`nck` for the lines family, `ntp_nck` for the breaks
family). -/
theorem c7_unknown_namespace_amended (nsp : List Char)
    (hline : dictGet LINE_NAMESPACES nsp = none)
    (hbreak : dictGet BREAK_NAMESPACES nsp = none) :
    lineServiceUrl nsp = strL "/ts-line-genesys-okcdb-ws" ∧
    breakServiceUrl nsp = strL "/break-nck-ntp-ws" := by
  rw [lineServiceUrl, breakServiceUrl, hline, hbreak]
  exact ⟨rfl, rfl⟩

/-- Witness for C7: the amended theorem applied to the unknown identifier
`"bogus"`. -/
theorem c7_witness :
    dictGet LINE_NAMESPACES (strL "bogus") = none ∧
    dictGet BREAK_NAMESPACES (strL "bogus") = none ∧
    (lineServiceUrl (strL "bogus") = strL "/ts-line-genesys-okcdb-ws" ∧
     breakServiceUrl (strL "bogus") = strL "/break-nck-ntp-ws") :=
  ⟨rfl, rfl, c7_unknown_namespace_amended (strL "bogus") rfl rfl⟩

/-- Claim C2, counterexample: the breaks-family `connect()` contains no
await of a further inbound frame after sending the authentication frame —
the step is absent from its handshake sequence. -/
theorem c2_counterexample :
    ¬ (HStep.awaitPostAuthFrame ∈ breaksConnectSteps) := by decide

/-- Claim C2 (amended): the lines family (`BaseWS.connect`) does wait, with
a bounded 5-second timeout, for one more inbound frame after sending
authentication and before spawning the read loop; the breaks family
authenticates directly after the namespace-connect acknowledgement and
spawns the read loop with no post-authentication wait.  The handshakes
diverge in exactly two steps: the breaks family omits both the explicit
"connected" wait and the post-authentication wait. -/
theorem c2_handshake_amended :
    baseConnectSteps =
      [.openSocket, .sendConnectPacket, .awaitConnectResponse, .awaitSecondMessage,
       .sendAuthentication, .awaitPostAuthFrame, .spawnListenLoop] ∧
    HStep.awaitPostAuthFrame ∈ baseConnectSteps ∧
    stepTimeout .awaitPostAuthFrame = some 5 ∧
    stepTimeout .awaitSecondMessage = some 5 ∧
    breaksConnectSteps = baseConnectSteps.filter
      (fun st => !(st == HStep.awaitSecondMessage) && !(st == HStep.awaitPostAuthFrame)) := by
  refine ⟨rfl, by decide, rfl, rfl, by decide⟩

/-- The handler loop invokes every handler with the value, in order, and
never lets an exception escape. -/
lemma emitRun_spec {α : Type} (hs : List Handler) (v : α) :
    emitRun hs v = (hs.map (fun hd => (hd.hid, v)), false) := by
  induction hs with
  | nil => rfl
  | cons h rest ih =>
    simp only [emitRun, ih, List.map_cons]
    split <;> rfl

/-- After registering under a fresh event name, the table holds exactly the
new handler for it. -/
lemma handlersFor_append_new (tbl : List (List Char × List Handler))
    (event : List Char) (hs : List Handler)
    (h : handlersFor tbl event = none) :
    handlersFor (tbl ++ [(event, hs)]) event = some hs := by
  induction tbl with
  | nil => simp [handlersFor]
  | cons kv rest ih =>
    by_cases he : kv.1 = event
    · exfalso
      simp [handlersFor, List.find?, he] at h
    · simp only [handlersFor, List.cons_append, List.find?] at h ⊢
      rw [show (kv.1 == event) = false by simpa using he] at h ⊢
      exact ih h

/-- Replacing the list stored under a present key stores it. -/
lemma handlersFor_replace (tbl : List (List Char × List Handler))
    (event : List Char) (hs hs' : List Handler)
    (h : handlersFor tbl event = some hs) :
    handlersFor (tblReplace tbl event hs') event = some hs' := by
  induction tbl with
  | nil => simp [handlersFor] at h
  | cons kv rest ih =>
    by_cases he : kv.1 = event
    · simp [tblReplace, he, handlersFor, List.find?]
    · simp only [handlersFor, List.find?] at h
      rw [show (kv.1 == event) = false by simpa using he] at h
      simp only [tblReplace, if_neg he, handlersFor, List.find?]
      rw [show (kv.1 == event) = false by simpa using he]
      exact ih h

/-- Claim C5: for every subscriber table and event, dispatch invokes each
registered handler — raising handlers included — in registration order, each
with the dispatched value; no handler exception prevents the remaining
handlers from running or propagates to the dispatch caller; and `on`
registration appends, so registration order is iteration order. -/
theorem c5_dispatch_isolated {α : Type} (tbl : List (List Char × List Handler))
    (event : List Char) (v : α) (h : Handler) :
    (emitEvent tbl event v).1 =
      ((handlersFor tbl event).getD []).map (fun hd => (hd.hid, v)) ∧
    (emitEvent tbl event v).2 = false ∧
    handlersFor (onRegister tbl event h) event =
      some (((handlersFor tbl event).getD []) ++ [h]) := by
  refine ⟨?_, ?_, ?_⟩
  · rw [emitEvent]
    cases hf : handlersFor tbl event with
    | none => rfl
    | some hs => simp [emitRun_spec]
  · rw [emitEvent]
    cases hf : handlersFor tbl event with
    | none => rfl
    | some hs => simp [emitRun_spec]
  · rw [onRegister]
    cases hf : handlersFor tbl event with
    | none => simpa using handlersFor_append_new tbl event [h] hf
    | some hs => simpa using handlersFor_replace tbl event hs (hs ++ [h]) hf

/-- The steps a `try:` body performs are some of its steps, in order. -/
lemma runSteps_sublist (outcome : HStep → Bool) (steps : List HStep)
    (s : ClientState) : List.Sublist (runSteps outcome steps s).2.2 steps := by
  induction steps generalizing s with
  | nil => simp [runSteps]
  | cons st rest ih =>
    simp only [runSteps]
    by_cases ho : outcome st
    · rw [if_pos ho]
      exact (ih (applyStep s st)).cons₂ st
    · rw [if_neg ho]
      exact (List.nil_sublist rest).cons₂ st

/-- A `try:` body whose every step succeeds performs all its steps and folds
their state changes. -/
lemma runSteps_allOk (outcome : HStep → Bool) (hall : ∀ st, outcome st = true)
    (steps : List HStep) (s : ClientState) :
    runSteps outcome steps s = (steps.foldl applyStep s, true, steps) := by
  induction steps generalizing s with
  | nil => rfl
  | cons st rest ih => simp [runSteps, hall, ih]

/-- A `connect()` call on a connected client is a no-op returning success. -/
lemma connectWith_noop (steps : List HStep) (outcome : HStep → Bool)
    (s : ClientState) (h : is_connected s = true) :
    connectWith steps outcome s = (s, true, []) := by
  rw [connectWith, if_pos h]

/-- A failed `connect()` ends in the state `disconnect()` leaves. -/
lemma connectWith_fail (steps : List HStep) (outcome : HStep → Bool)
    (s : ClientState) (hfail : (connectWith steps outcome s).2.1 = false) :
    (connectWith steps outcome s).1 = disconnect (runSteps outcome steps s).1 ∧
    (connectWith steps outcome s).1.ws = none ∧
    is_connected (connectWith steps outcome s).1 = false ∧
    List.Sublist (connectWith steps outcome s).2.2 steps := by
  rw [connectWith] at hfail ⊢
  by_cases hc : is_connected s
  · rw [if_pos hc] at hfail
    exact absurd hfail (by simp)
  · rw [if_neg hc] at hfail ⊢
    rcases hrun : runSteps outcome steps s with ⟨s', ok, performed⟩
    cases ok with
    | true =>
      rw [hrun] at hfail
      exact Bool.noConfusion hfail
    | false =>
      refine ⟨rfl, rfl, rfl, ?_⟩
      have h2 := runSteps_sublist outcome steps s
      rw [hrun] at h2
      exact h2

/-- Claim C4: whenever a handshake step of `connect()` fails — a timeout or
a close/error frame raising inside it — `connect()` runs `disconnect()`
before propagating the failure, so the socket handle is cleared and
`is_connected` is false after every failed attempt; and no reconnect is
attempted: the socket is opened at most once per call. -/
theorem c4_connect_failure_teardown (outcome : HStep → Bool) (s : ClientState)
    (hfail : (baseConnect outcome s).2.1 = false) :
    (baseConnect outcome s).1 = disconnect (runSteps outcome baseConnectSteps s).1 ∧
    (baseConnect outcome s).1.ws = none ∧
    is_connected (baseConnect outcome s).1 = false ∧
    (baseConnect outcome s).2.2.count HStep.openSocket ≤ 1 := by
  have h := connectWith_fail baseConnectSteps outcome s hfail
  refine ⟨h.1, h.2.1, h.2.2.1, ?_⟩
  calc (baseConnect outcome s).2.2.count HStep.openSocket
      ≤ baseConnectSteps.count HStep.openSocket := h.2.2.2.count_le HStep.openSocket
    _ = 1 := by decide

/-- Witness for C4: a run whose namespace-connect acknowledgement times out;
the failed `connect()` leaves the socket handle cleared. -/
theorem c4_witness :
    (baseConnect (fun st => !(st == HStep.awaitConnectResponse))
      ⟨none, none, [], 0⟩).2.1 = false ∧
    ((baseConnect (fun st => !(st == HStep.awaitConnectResponse))
        ⟨none, none, [], 0⟩).1.ws = none ∧
      is_connected (baseConnect (fun st => !(st == HStep.awaitConnectResponse))
        ⟨none, none, [], 0⟩).1 = false) :=
  ⟨rfl,
    ⟨(c4_connect_failure_teardown (fun st => !(st == HStep.awaitConnectResponse))
        ⟨none, none, [], 0⟩ rfl).2.1,
     (c4_connect_failure_teardown (fun st => !(st == HStep.awaitConnectResponse))
        ⟨none, none, [], 0⟩ rfl).2.2.1⟩⟩

/-- Claim C9: `connect()` on a disconnected client performs the full
handshake once and succeeds; a second `connect()` without an intervening
`disconnect()` — under any environment — is a no-op returning success: the
state (socket handle, listen task, subscriber table) is returned unchanged
and no step is performed, so the handshake runs exactly once across the two
calls.  Both namespace-client families behave so. -/
theorem c9_connect_idempotent (outcome outcome2 : HStep → Bool) (s : ClientState)
    (hdis : is_connected s = false) (hall : ∀ st, outcome st = true) :
    (baseConnect outcome s).2.1 = true ∧
    (baseConnect outcome s).2.2 = baseConnectSteps ∧
    baseConnect outcome2 (baseConnect outcome s).1 =
      ((baseConnect outcome s).1, true, []) ∧
    (baseConnect outcome s).1.handlers = s.handlers ∧
    (breaksConnect outcome s).2.1 = true ∧
    (breaksConnect outcome s).2.2 = breaksConnectSteps ∧
    breaksConnect outcome2 (breaksConnect outcome s).1 =
      ((breaksConnect outcome s).1, true, []) := by
  have hbase : baseConnect outcome s =
      ({ s with
          ws := some ⟨s.nextId, false⟩
          nextId := s.nextId + 1
          listenTask := some false }, true, baseConnectSteps) := by
    rw [baseConnect, connectWith, if_neg (by simp [hdis]),
      runSteps_allOk outcome hall]
    rfl
  have hbreaks : breaksConnect outcome s =
      ({ s with
          ws := some ⟨s.nextId, false⟩
          nextId := s.nextId + 1
          listenTask := some false }, true, breaksConnectSteps) := by
    rw [breaksConnect, connectWith, if_neg (by simp [hdis]),
      runSteps_allOk outcome hall]
    rfl
  rw [hbase, hbreaks]
  exact ⟨rfl, rfl, connectWith_noop baseConnectSteps outcome2 _ rfl, rfl, rfl, rfl,
    connectWith_noop breaksConnectSteps outcome2 _ rfl⟩

/-- Witness for C9: a fresh client, every handshake frame arriving; the
second `connect()` returns the connected state unchanged. -/
theorem c9_witness :
    is_connected ⟨none, none, [], 0⟩ = false ∧
    (baseConnect (fun _ => true) ⟨none, none, [], 0⟩).2.1 = true ∧
    baseConnect (fun _ => true) (baseConnect (fun _ => true) ⟨none, none, [], 0⟩).1 =
      ((baseConnect (fun _ => true) ⟨none, none, [], 0⟩).1, true, []) :=
  ⟨rfl,
    (c9_connect_idempotent (fun _ => true) (fun _ => true) ⟨none, none, [], 0⟩
      rfl (fun _ => rfl)).1,
    (c9_connect_idempotent (fun _ => true) (fun _ => true) ⟨none, none, [], 0⟩
      rfl (fun _ => rfl)).2.2.1⟩

/-- Claim C10: the already-connected guard of `connect()` is exactly the
`is_connected` predicate.  A client whose socket handle is present but whose
socket is closed is not connected, so `connect()` does not no-op: it
performs the full handshake afresh and replaces the socket handle with a new
open one, with no intervening `disconnect()` required. -/
theorem c10_closed_socket_reconnect (outcome : HStep → Bool) (s : ClientState)
    (h : WsHandle) (hws : s.ws = some h) (hcl : h.closed = true)
    (hall : ∀ st, outcome st = true) :
    is_connected s = false ∧
    (baseConnect outcome s).2.1 = true ∧
    (baseConnect outcome s).2.2 = baseConnectSteps ∧
    (baseConnect outcome s).1.ws = some ⟨s.nextId, false⟩ ∧
    (baseConnect outcome s).1.ws ≠ some h := by
  have hdis : is_connected s = false := by simp [is_connected, hws, hcl]
  have hbase : baseConnect outcome s =
      ({ s with
          ws := some ⟨s.nextId, false⟩
          nextId := s.nextId + 1
          listenTask := some false }, true, baseConnectSteps) := by
    rw [baseConnect, connectWith, if_neg (by simp [hdis]),
      runSteps_allOk outcome hall]
    rfl
  rw [hbase]
  refine ⟨hdis, rfl, rfl, rfl, fun he => ?_⟩
  have : h.closed = false := by
    have hh : (⟨s.nextId, false⟩ : WsHandle) = h := Option.some.inj he
    rw [← hh]
  rw [hcl] at this
  exact Bool.noConfusion this

/-- Claim C3, counterexample: the valid triple of kind 4, empty namespace
and non-nil payload `[1]` does not round-trip.  Its wire form is `"4,[1]"`,
whose parse glues the separator comma into the payload: the recovered
payload is the raw string `",[1]"`, not the original list — which its own
JSON normalization would have preserved. -/
theorem c3_counterexample :
    serializePacket 4 [] (some (J.arr [J.num 1])) = strL "4,[1]" ∧
    parseEngineio (strL "4,[1]") = some (4, [], some (J.str (strL ",[1]"))) ∧
    normalizePy (J.arr [J.num 1]) = J.arr [J.num 1] ∧
    J.str (strL ",[1]") ≠ J.arr [J.num 1] :=
  ⟨rfl, rfl, rfl, fun h => J.noConfusion h⟩

/-- Claim C3 (amended): the codec round-trip holds for every kind 0–6 once
the namespace is non-empty — starting with `/`, as every real namespace
path does, and containing no comma — and the payload (if any) is preserved
by JSON normalization (serializing with `json.dumps`/`str` and re-reading
with `json.loads`, the raw string kept on decode failure):
`parse(serialize(kind, namespace, payload))` recovers exactly
`(kind, namespace, payload)`.  With an empty namespace and a non-nil
payload the round-trip fails (see the counterexample). -/
theorem c3_roundtrip_amended (packetType : Nat) (nsp : List Char)
    (data : Option J) (hk : packetType ≤ 6)
    (hns1 : nsp.head? = some '/')
    (hns2 : ',' ∉ nsp)
    (hdata : ∀ d, data = some d → normalizePy d = d) :
    parseEngineio (serializePacket packetType nsp data) =
      some (packetType, nsp, data) := by
  have h9 : packetType ≤ 9 := le_trans hk (by norm_num)
  obtain ⟨t, rfl⟩ : ∃ t, nsp = '/' :: t := by
    cases nsp with
    | nil => exact absurd hns1 (by simp)
    | cons c t => exact ⟨t, by rw [Option.some.inj hns1]⟩
  simp only [serializePacket]
  rw [toDigits10 _ h9]
  cases data with
  | none =>
    simp only [List.append_nil, List.singleton_append, List.cons_append,
      List.nil_append]
    rw [parseEngineio_cons _ packetType _ (digitVal_ofNat _ h9)]
    rw [if_pos (by simp [List.contains_cons]),
      splitOnce_no_sep ',' ('/' :: t) hns2]
    simp
  | some d =>
    simp only [List.singleton_append, List.cons_append, List.nil_append]
    rw [parseEngineio_cons _ packetType _ (digitVal_ofNat _ h9)]
    have hfound : splitOnce ',' ('/' :: (t ++ ',' :: pyPayloadStr d)) =
        ('/' :: t, some (pyPayloadStr d)) := by
      have h0 := splitOnce_found ',' ('/' :: t) (pyPayloadStr d) hns2
      simpa using h0
    rw [if_pos (by simp [List.contains_cons]), hfound]
    simp only [List.head?]
    rw [if_pos trivial]
    rw [show Option.map decodeData (some (pyPayloadStr d)) =
        some (normalizePy d) from rfl, hdata d rfl]

/-- Witness for C3: kind 4, namespace `"/chat"`, and a dict payload fixed by
JSON normalization; the round-trip recovers the triple exactly. -/
theorem c3_witness :
    (4 ≤ 6) ∧
    ((strL "/chat").head? = some '/') ∧
    (',' ∉ strL "/chat") ∧
    normalizePy (J.obj [(strL "a", J.arr [J.num 1, J.str (strL "x")])]) =
      J.obj [(strL "a", J.arr [J.num 1, J.str (strL "x")])] ∧
    parseEngineio (serializePacket 4 (strL "/chat")
        (some (J.obj [(strL "a", J.arr [J.num 1, J.str (strL "x")])]))) =
      some (4, strL "/chat",
        some (J.obj [(strL "a", J.arr [J.num 1, J.str (strL "x")])])) := by
  refine ⟨by norm_num, rfl, by decide, rfl, ?_⟩
  exact c3_roundtrip_amended 4 (strL "/chat") _ (by norm_num) rfl (by decide)
    (fun d hd => by
      rw [← Option.some.inj hd]
      rfl)

/-- Claim C6: for the simplified break namespace family (`ntp_one`,
`ntp_two`), a `pageData` event whose truthy dict payload fails strict
validation into `SimplePageData` neither raises nor is dropped:
`on_message` performs exactly one dispatch, under the original event name,
carrying the raw undecoded payload. -/
theorem c6_decode_failure_raw_dispatch (nsp : List Char)
    (kvs : List (List Char × J))
    (hns : nsp = strL "ntp_one" ∨ nsp = strL "ntp_two")
    (hne : kvs ≠ [])
    (hfail : decodeSimplePageData (J.obj kvs) = none) :
    breaksOnMessage nsp (some (J.arr [J.str (strL "pageData"), J.obj kvs])) =
      [(J.str (strL "pageData"), Emitted.raw (some (J.obj kvs)))] := by
  obtain ⟨a, t, rfl⟩ := List.exists_cons_of_ne_nil hne
  simp only [breaksOnMessage, List.head?, truthyDict]
  rw [if_neg (by decide), if_neg (by decide), if_pos trivial, if_pos hns, hfail]

/-- Witness for C6: the spec's malformed example — a `pageData` payload whose
`lines` value fails validation — is dispatched raw on `ntp_one`. -/
theorem c6_witness :
    decodeSimplePageData
      (J.obj [(strL "lines", J.obj [(strL "line5", J.str (strL "bad"))])]) = none ∧
    breaksOnMessage (strL "ntp_one")
      (some (J.arr [J.str (strL "pageData"),
        J.obj [(strL "lines", J.obj [(strL "line5", J.str (strL "bad"))])]])) =
      [(J.str (strL "pageData"),
        Emitted.raw (some (J.obj
          [(strL "lines", J.obj [(strL "line5", J.str (strL "bad"))])])))] :=
  ⟨rfl, c6_decode_failure_raw_dispatch (strL "ntp_one")
    [(strL "lines", J.obj [(strL "line5", J.str (strL "bad"))])]
    (Or.inl rfl) (by simp) rfl⟩

/-- Witness for C10: a client holding a closed handle; `connect()` runs the
full handshake and installs a fresh open handle. -/
theorem c10_witness :
    (⟨some ⟨0, true⟩, none, [], 1⟩ : ClientState).ws = some ⟨0, true⟩ ∧
    (is_connected ⟨some ⟨0, true⟩, none, [], 1⟩ = false ∧
      (baseConnect (fun _ => true) ⟨some ⟨0, true⟩, none, [], 1⟩).2.1 = true ∧
      (baseConnect (fun _ => true) ⟨some ⟨0, true⟩, none, [], 1⟩).2.2 =
        baseConnectSteps ∧
      (baseConnect (fun _ => true) ⟨some ⟨0, true⟩, none, [], 1⟩).1.ws =
        some ⟨1, false⟩ ∧
      (baseConnect (fun _ => true) ⟨some ⟨0, true⟩, none, [], 1⟩).1.ws ≠
        some ⟨0, true⟩) :=
  ⟨rfl, c10_closed_socket_reconnect (fun _ => true) ⟨some ⟨0, true⟩, none, [], 1⟩
    ⟨0, true⟩ rfl rfl (fun _ => rfl)⟩

end Okc
